import Mathlib

/-!
Shallow embedding of `src/script.js` (the "Teclado Hielo" canvas particle
system) and proofs about its particle lifecycle, render-loop state machine,
burst animation and debug API.

Modelling conventions:
* JavaScript numbers are modelled as rationals (`ℚ`).
* `Math.sin` is an uninterpreted function parameter `jsSin : ℚ → ℚ`; no claim
  depends on its values.
* Each call to `Math.random()` is an oracle draw passed in explicitly
  (`ResetDraws` for `Particle.reset`, `ColorDraws` for the palette
  randomiser); draws lie in `[0,1)` where a proof needs that fact, stated as
  a hypothesis.
* The DOM / canvas is modelled only as far as the claims need: a `blank`
  flag for "the surface is fully cleared", and allocation identities for the
  aliasing behaviour of the `particles` array.
-/

namespace TecladoHielo

/-- The icy neon colour palette (script.js lines 18–23). -/
def palette0 : List String :=
  ["rgba(127,227,255,0.9)",
   "rgba(123,216,255,0.85)",
   "rgba(190,245,255,0.6)",
   "rgba(170,230,255,0.5)"]

/-- One particle (script.js lines 26–69): position, velocity, size, age
(`life`), time-to-live (`ttl`), colour, alpha and spin. -/
structure Particle where
  x : ℚ
  y : ℚ
  vy : ℚ
  vx : ℚ
  size : ℚ
  life : ℕ
  ttl : ℚ
  color : String
  alpha : ℚ
  spin : ℚ
deriving DecidableEq

/-- The raw `Math.random()` results consumed by one call to `Particle.reset`
(script.js lines 31–40), one per randomised field. -/
structure ResetDraws where
  rx : ℚ
  ry : ℚ
  rvy : ℚ
  rvx : ℚ
  rsize : ℚ
  rttl : ℚ
  rcolor : ℚ
  ralpha : ℚ
  rspin : ℚ
deriving DecidableEq

/-- `Particle.reset` (script.js lines 30–41): reassigns every randomised
field from the current canvas size `W × H` and the current palette `pal`.
`palette[Math.floor(Math.random() * palette.length)]` is modelled with
`List.getD` (the index is always in range when the draw lies in `[0,1)`). -/
def Particle.reset (W H : ℚ) (pal : List String) (d : ResetDraws) : Particle where
  x := d.rx * W
  y := d.ry * (-H) * (1 / 2)
  vy := 1 / 5 + d.rvy * (6 / 5)
  vx := (d.rvx - 1 / 2) * (3 / 5)
  size := 1 + d.rsize * 4
  life := 0
  ttl := 80 + d.rttl * 220
  color := pal.getD (⌊d.rcolor * (pal.length : ℚ)⌋.toNat) ""
  alpha := 2 / 25 + d.ralpha * (9 / 10)
  spin := d.rspin * (3 / 50) - 3 / 100

/-- `Particle.update` (script.js lines 42–48).  The source mutates `x`, `y`,
`vx`, `life` and then tests `this.y > H + 20 || this.life > this.ttl` on the
already-advanced `y` and `life`; when the test fires, `reset` overwrites
every field, so the whole call is a single conditional on the advanced
values.  `d` is the oracle for the `Math.random()` calls a reset would
consume. -/
def Particle.update (jsSin : ℚ → ℚ) (W H : ℚ) (pal : List String)
    (d : ResetDraws) (p : Particle) : Particle :=
  if p.y + p.vy > H + 20 ∨ (p.life : ℚ) + 1 > p.ttl then
    Particle.reset W H pal d
  else
    { p with
      x := p.x + p.vx
      y := p.y + p.vy
      vx := p.vx + jsSin ((p.life : ℚ) * (1 / 100)) * (1 / 500)
      life := p.life + 1 }

/-- `n` successive `update` calls on one particle; call number `k`
(0-indexed) uses oracle `ds k` for the draws its reset would consume. -/
def updateN (jsSin : ℚ → ℚ) (W H : ℚ) (pal : List String)
    (ds : ℕ → ResetDraws) (p : Particle) : ℕ → Particle
  | 0 => p
  | n + 1 => Particle.update jsSin W H pal (ds n) (updateN jsSin W H pal ds p n)

/-- The all-zero draw oracle, used for concrete witnesses. -/
def zeroDraws : ResetDraws :=
  ⟨0, 0, 0, 0, 0, 0, 0, 0, 0⟩

/-! ### Particle field sizing

`PARTICLE_COUNT` (script.js line 14) is a `const` computed once at load time
from the dimensions set on lines 11–12; `initParticles` (lines 72–77)
rebuilds the pool with `Math.max(20, PARTICLE_COUNT)` particles, and
`resize` (lines 81–85) updates `W`, `H` and calls `initParticles`. -/

/-- `Math.round((w * h) / 70000)` (script.js line 14).  JavaScript
`Math.round` rounds half-up, which is Mathlib's `round` on `ℚ`. -/
def PARTICLE_COUNT (w h : ℚ) : ℤ :=
  round (w * h / 70000)

/-- The mutable globals of the field: current canvas size, the load-time
`PARTICLE_COUNT` constant, and the pool. -/
structure FieldSys where
  W : ℚ
  H : ℚ
  particleCount : ℤ
  particles : List Particle

/-- `initParticles` (script.js lines 72–77): rebuilds the pool with
`Math.max(20, PARTICLE_COUNT)` fresh particles, each constructed via
`reset()` against the current `W`, `H` and palette. -/
def initParticles (pal : List String) (draws : ℕ → ResetDraws)
    (s : FieldSys) : FieldSys :=
  { s with
    particles :=
      (List.range (max 20 s.particleCount).toNat).map fun i =>
        Particle.reset s.W s.H pal (draws i) }

/-- `resize` (script.js lines 81–85): stores the new dimensions, then calls
`initParticles` — which still uses the load-time `particleCount` constant. -/
def resizeField (pal : List String) (draws : ℕ → ResetDraws)
    (w h : ℚ) (s : FieldSys) : FieldSys :=
  initParticles pal draws { s with W := w, H := h }

/-- Script load at viewport `w0 × h0`: lines 11–13 set `W`, `H` and an empty
pool, line 14 fixes `PARTICLE_COUNT`, and `start()` (line 197) calls
`resize()`, which re-reads the same viewport and builds the pool. -/
def loadField (pal : List String) (draws : ℕ → ResetDraws)
    (w0 h0 : ℚ) : FieldSys :=
  resizeField pal draws w0 h0
    { W := w0, H := h0, particleCount := PARTICLE_COUNT w0 h0, particles := [] }

/-! ### Render-loop state machine

Models `rafId` (line 80), `render` (lines 90–104), the `motionToggle`
change handler (lines 170–178), the `visibilitychange` handler
(lines 212–218) and the initial `start()` (lines 196–198).  The canvas is
abstracted to a `blank` flag; `pending` is the set of outstanding
render-loop `requestAnimationFrame` handles and `nextH` the number of such
requests ever made.  `prefersReduced` (line 15) is read once and passed as
the fixed parameter `pr`. -/

structure Loop where
  rafId : Option ℕ
  pending : Finset ℕ
  nextH : ℕ
  checked : Bool
  hidden : Bool
  blank : Bool
deriving DecidableEq

/-- `render()` (script.js lines 90–104): paints (clears then fills a
gradient and the particles, so the surface is not blank afterwards), then —
only when `prefersReduced` is false — stores a fresh frame-request handle in
`rafId` (line 103).  Particle updates are irrelevant to the loop-lifecycle
claims and are omitted from this state. -/
def Loop.render (pr : Bool) (s : Loop) : Loop :=
  if pr then
    { s with blank := false }
  else
    { s with
      blank := false
      rafId := some s.nextH
      pending := insert s.nextH s.pending
      nextH := s.nextH + 1 }

/-- `cancelAnimationFrame(rafId)`: removes the pending request named by
`rafId`, a no-op when `rafId` is `null` or stale. -/
def Loop.cancelRaf (s : Loop) : Loop :=
  match s.rafId with
  | some h => { s with pending := s.pending.erase h }
  | none => s

/-- The external events the handlers react to.  `toggle c` is a
`motionToggle` change to checked-state `c`; `visibility h` a visibility
change to hidden-state `h`; `frame` the host firing the pending render
callback. -/
inductive Ev where
  | toggle (c : Bool)
  | visibility (h : Bool)
  | frame
deriving DecidableEq

/-- One event step.
* `toggle false` (lines 171–174): cancel, null `rafId`, `clearRect`.
* `toggle true` (line 176): `if (!rafId) render()`.
* `visibility true` (lines 213–214): cancel and null `rafId` — no clear.
* `visibility false` (line 216): `if (!rafId && motionToggle.checked &&
  !prefersReduced) render()`.
* `frame`: the host consumes the outstanding request and runs `render`
  (the handler body is just `render`, line 103 having stored the handle). -/
def Loop.step (pr : Bool) (s : Loop) : Ev → Loop
  | .toggle true =>
    if s.rafId = none then Loop.render pr { s with checked := true }
    else { s with checked := true }
  | .toggle false =>
    { Loop.cancelRaf { s with checked := false } with
      rafId := none, blank := true }
  | .visibility true =>
    { Loop.cancelRaf { s with hidden := true } with rafId := none }
  | .visibility false =>
    if s.rafId = none ∧ s.checked = true ∧ pr = false then
      Loop.render pr { s with hidden := false }
    else { s with hidden := false }
  | .frame =>
    match s.rafId with
    | some h =>
      if h ∈ s.pending then
        Loop.render pr { s with pending := s.pending.erase h }
      else s
    | none => s

/-- The state after script load: `rafId = null` (line 80), then `start()`
(lines 196–198) runs `render()` unless `prefersReduced`.  `c0` is the
initial checked state of the motion toggle (set by the HTML, unknown). -/
def Loop.load (pr c0 : Bool) : Loop :=
  let s : Loop :=
    { rafId := none, pending := ∅, nextH := 0,
      checked := c0, hidden := false, blank := true }
  if pr then s else s.render pr

/-- The states the script can reach: the load state closed under event
steps. -/
inductive Loop.Reachable (pr c0 : Bool) : Loop → Prop
  | load : Loop.Reachable pr c0 (Loop.load pr c0)
  | step (s : Loop) (e : Ev) :
      Loop.Reachable pr c0 s → Loop.Reachable pr c0 (s.step pr e)

/-! ### Burst effect

`burstLight` (script.js lines 123–146): `t` starts at `0` and `duration` is
`420`; each frame does `t += 16`, paints with `progress = t / duration`, and
reschedules itself while `t < duration`.  The spawn itself schedules the
first frame (line 145). -/

/-- `420` (script.js line 129). -/
def burstDuration : ℚ := 420

/-- Elapsed time of a burst together with whether a further frame is
scheduled. -/
structure BurstState where
  t : ℚ
  scheduled : Bool
deriving DecidableEq

/-- One `frame()` call (script.js lines 131–144): advance `t` by 16 and
reschedule exactly when the new `t` is still below `duration`; a state with
no scheduled frame never runs again. -/
def burstStep (s : BurstState) : BurstState :=
  if s.scheduled then
    { t := s.t + 16, scheduled := decide (s.t + 16 < burstDuration) }
  else s

/-- The burst state before tick `k` (tick 0 is the frame scheduled by the
spawn itself on line 145). -/
def burstStates : ℕ → BurstState
  | 0 => ⟨0, true⟩
  | n + 1 => burstStep (burstStates n)

/-- The `progress` value painted by tick `k` (meaningful when that tick is
scheduled): `(t + 16) / duration` for the `t` on entry. -/
def burstPainted (k : ℕ) : ℚ :=
  ((burstStates k).t + 16) / burstDuration

/-! ### Palette randomisation

The `randomizeBtn` click handler (script.js lines 180–193) overwrites every
palette entry in place with a fresh
`rgba(${120+…},${180+…},255,${0.6+…})` string. -/

/-- The `Math.random()` draws consumed for one new palette entry
(script.js lines 183–184). -/
structure ColorDraws where
  rr : ℚ
  rg : ℚ
  ra : ℚ
deriving DecidableEq

/-- One freshly randomised colour string (script.js line 184). -/
def randomColor (c : ColorDraws) : String :=
  "rgba(" ++ toString (120 + (⌊c.rr * 120⌋).toNat) ++ ","
    ++ toString (180 + (⌊c.rg * 70⌋).toNat) ++ ",255,"
    ++ toString (3 / 5 + c.ra * (7 / 20) : ℚ) ++ ")"

/-- The randomize-click handler's effect on the palette (script.js
lines 182–185): every entry is replaced. -/
def randomizePalette (cds : ℕ → ColorDraws) (pal : List String) : List String :=
  (List.range pal.length).map fun i => randomColor (cds i)

/-! ### Debug API aliasing

`initParticles` (line 73) rebinds the local `particles` to a *new* array;
`window._TecladoHielo` (line 224) captures the array reference current at
load time.  Arrays are modelled by allocation identity. -/

/-- Which array object the `particles` variable and the exposed debug
object point at. -/
structure PoolSys where
  poolId : ℕ
  nextId : ℕ
  exposedId : Option ℕ
deriving DecidableEq

/-- `particles = []` inside `initParticles` (line 73): allocates a fresh
array and rebinds the variable to it. -/
def reinitPool (s : PoolSys) : PoolSys :=
  { s with poolId := s.nextId, nextId := s.nextId + 1 }

/-- `window._TecladoHielo = { particles, … }` (line 224): captures the
array reference currently bound to `particles`. -/
def exposeAPI (s : PoolSys) : PoolSys :=
  { s with exposedId := some s.poolId }

/-- Script load: `let particles = []` (line 13) allocates array 0, `start()`
→ `resize()` → `initParticles()` rebinds to array 1, then line 224 exposes
the then-current array. -/
def loadPool : PoolSys :=
  exposeAPI (reinitPool { poolId := 0, nextId := 1, exposedId := none })

/-- `n` further re-initialisations (resizes) after some state. -/
def reinitN : ℕ → PoolSys → PoolSys
  | 0, s => s
  | n + 1, s => reinitPool (reinitN n s)

/-! ## Theorems -/

/-- Helper: as long as neither reset trigger fires, iterated `update` just
counts `life` up and keeps `ttl` (and the colour) fixed. -/
theorem updateN_no_reset (jsSin : ℚ → ℚ) (W H : ℚ) (pal : List String)
    (ds : ℕ → ResetDraws) (p : Particle) (hlife : p.life = 0) (n : ℕ)
    (hn : (n : ℚ) ≤ p.ttl)
    (hy : ∀ k, k < n →
      (updateN jsSin W H pal ds p k).y + (updateN jsSin W H pal ds p k).vy ≤ H + 20) :
    ∀ k, k ≤ n → (updateN jsSin W H pal ds p k).life = k ∧
      (updateN jsSin W H pal ds p k).ttl = p.ttl ∧
      (updateN jsSin W H pal ds p k).color = p.color := by
  intro k hk
  induction k with
  | zero => exact ⟨hlife, rfl, rfl⟩
  | succ k ih =>
    obtain ⟨ihl, iht, ihc⟩ := ih (Nat.le_of_succ_le hk)
    have hcond : ¬((updateN jsSin W H pal ds p k).y +
        (updateN jsSin W H pal ds p k).vy > H + 20 ∨
        ((updateN jsSin W H pal ds p k).life : ℚ) + 1 >
          (updateN jsSin W H pal ds p k).ttl) := by
      push_neg
      refine ⟨hy k (Nat.lt_of_succ_le hk), ?_⟩
      rw [ihl, iht]
      have : ((k : ℚ) + 1) ≤ (n : ℚ) := by exact_mod_cast Nat.succ_le_of_lt (Nat.lt_of_succ_le hk)
      linarith
    simp only [updateN]
    rw [Particle.update, if_neg hcond]
    exact ⟨by simp [ihl], iht, ihc⟩

/-- C5: a fresh particle whose `y` never crosses the bound survives exactly
`⌊ttl⌋` updates with `life` counting up; on the next update the incremented
age exceeds `ttl`, and that same call resets the particle: the result is
exactly `Particle.reset` for that call's draws (age 0; ttl, colour, alpha,
spin and position all reassigned). -/
theorem C5_ttl_exhaustion_resets (jsSin : ℚ → ℚ) (W H : ℚ) (pal : List String)
    (ds : ℕ → ResetDraws) (p : Particle) (hlife : p.life = 0) (n : ℕ)
    (hn₁ : (n : ℚ) ≤ p.ttl) (hn₂ : p.ttl < (n : ℚ) + 1)
    (hy : ∀ k, k < n →
      (updateN jsSin W H pal ds p k).y + (updateN jsSin W H pal ds p k).vy ≤ H + 20) :
    (updateN jsSin W H pal ds p n).life = n ∧
    ((updateN jsSin W H pal ds p n).life : ℚ) + 1 > (updateN jsSin W H pal ds p n).ttl ∧
    updateN jsSin W H pal ds p (n + 1) = Particle.reset W H pal (ds n) ∧
    (updateN jsSin W H pal ds p (n + 1)).life = 0 := by
  obtain ⟨hl, ht, -⟩ :=
    updateN_no_reset jsSin W H pal ds p hlife n hn₁ hy n le_rfl
  have hgt : ((updateN jsSin W H pal ds p n).life : ℚ) + 1 >
      (updateN jsSin W H pal ds p n).ttl := by
    rw [hl, ht]; exact hn₂
  have hreset : updateN jsSin W H pal ds p (n + 1) = Particle.reset W H pal (ds n) := by
    show Particle.update jsSin W H pal (ds n) (updateN jsSin W H pal ds p n) = _
    rw [Particle.update, if_pos (Or.inr hgt)]
  exact ⟨hl, hgt, hreset, by rw [hreset]; rfl⟩

/-- Witness for C5 at a concrete particle with `ttl = 5/2` on a `100 × 100`
surface: it survives 2 updates and the third resets it. -/
theorem C5_witness :
    (updateN (fun _ => 0) 100 100 palette0 (fun _ => zeroDraws)
        ⟨0, 0, 1/10, 0, 1, 0, 5/2, "old", 1/2, 0⟩ 2).life = 2 ∧
    updateN (fun _ => 0) 100 100 palette0 (fun _ => zeroDraws)
        ⟨0, 0, 1/10, 0, 1, 0, 5/2, "old", 1/2, 0⟩ 3 =
      Particle.reset 100 100 palette0 zeroDraws := by
  have h := C5_ttl_exhaustion_resets (fun _ => 0) 100 100 palette0
    (fun _ => zeroDraws) ⟨0, 0, 1/10, 0, 1, 0, 5/2, "old", 1/2, 0⟩ rfl 2
    (show ((2 : ℕ) : ℚ) ≤ 5/2 by norm_num)
    (show (5/2 : ℚ) < (2 : ℕ) + 1 by norm_num)
    (by
      intro k hk
      interval_cases k <;>
        norm_num [updateN, Particle.update, Particle.reset])
  exact ⟨h.1, h.2.2.1⟩

/-- C6: if advancing the position pushes `y` past `H + 20`, that same
`update()` call resets the particle, whatever its age. -/
theorem C6_y_overflow_resets (jsSin : ℚ → ℚ) (W H : ℚ) (pal : List String)
    (d : ResetDraws) (p : Particle) (hy : p.y + p.vy > H + 20) :
    Particle.update jsSin W H pal d p = Particle.reset W H pal d := by
  rw [Particle.update, if_pos (Or.inl hy)]

/-- Witness for C6: a particle at `y = 1000` on a `100 × 100` surface is
reset by `update` even though its age (`life = 0`) is far below `ttl`. -/
theorem C6_witness :
    ((1000 : ℚ) + 1 > 100 + 20) ∧
    Particle.update (fun _ => 0) 100 100 palette0 zeroDraws
        ⟨0, 1000, 1, 0, 1, 0, 100, "old", 1/2, 0⟩ =
      Particle.reset 100 100 palette0 zeroDraws := by
  refine ⟨by norm_num, ?_⟩
  exact C6_y_overflow_resets (fun _ => 0) 100 100 palette0 zeroDraws
    ⟨0, 1000, 1, 0, 1, 0, 100, "old", 1/2, 0⟩ (by norm_num)

/-- C10: immediately after any `update()` call, `0 ≤ life ≤ ttl`: the reset
branch fires inside the same call whenever the incremented age passes `ttl`,
so `life` never exceeds `ttl` at a frame boundary.  The only assumption is
that the reset draw for `ttl` is a genuine `Math.random()` result
(nonnegative). -/
theorem C10_life_le_ttl (jsSin : ℚ → ℚ) (W H : ℚ) (pal : List String)
    (d : ResetDraws) (p : Particle) (hd : 0 ≤ d.rttl) :
    0 ≤ ((Particle.update jsSin W H pal d p).life : ℚ) ∧
    ((Particle.update jsSin W H pal d p).life : ℚ) ≤
      (Particle.update jsSin W H pal d p).ttl := by
  refine ⟨by positivity, ?_⟩
  rw [Particle.update]
  split
  · show ((0 : ℕ) : ℚ) ≤ 80 + d.rttl * 220
    have : 0 ≤ d.rttl * 220 := by positivity
    push_cast
    linarith
  · rename_i hcond
    push_neg at hcond
    show ((p.life + 1 : ℕ) : ℚ) ≤ p.ttl
    push_cast
    exact_mod_cast hcond.2

/-- Witness for C10 at a concrete particle whose increment crosses `ttl`
(so the reset branch fires and `life` drops back to 0). -/
theorem C10_witness :
    0 ≤ ((Particle.update (fun _ => 0) 100 100 palette0 zeroDraws
        ⟨0, 0, 1/10, 0, 1, 7, 15/2, "old", 1/2, 0⟩).life : ℚ) ∧
    ((Particle.update (fun _ => 0) 100 100 palette0 zeroDraws
        ⟨0, 0, 1/10, 0, 1, 7, 15/2, "old", 1/2, 0⟩).life : ℚ) ≤
      (Particle.update (fun _ => 0) 100 100 palette0 zeroDraws
        ⟨0, 0, 1/10, 0, 1, 7, 15/2, "old", 1/2, 0⟩).ttl :=
  C10_life_le_ttl (fun _ => 0) 100 100 palette0 zeroDraws
    ⟨0, 0, 1/10, 0, 1, 7, 15/2, "old", 1/2, 0⟩ le_rfl

/-- C7: after the palette is randomised, a particle whose `update` does not
trigger a reset keeps its previously copied colour string (reset copies a
value, not a reference), while any particle that resets afterwards draws
its colour from the new palette. -/
theorem C7_palette_randomize (jsSin : ℚ → ℚ) (W H : ℚ) (pal : List String)
    (cds : ℕ → ColorDraws) (d : ResetDraws) (p : Particle)
    (hno : ¬(p.y + p.vy > H + 20 ∨ (p.life : ℚ) + 1 > p.ttl))
    (_hc0 : 0 ≤ d.rcolor) (hc1 : d.rcolor < 1) (hpal : pal ≠ []) :
    (Particle.update jsSin W H (randomizePalette cds pal) d p).color = p.color ∧
    (Particle.reset W H (randomizePalette cds pal) d).color ∈
      randomizePalette cds pal := by
  constructor
  · rw [Particle.update, if_neg hno]
  · set L := randomizePalette cds pal with hL
    have hLlen : L.length = pal.length := by
      rw [hL, randomizePalette, List.length_map, List.length_range]
    have hlen0 : 0 < L.length := by
      rw [hLlen]
      exact List.length_pos.mpr hpal
    have hidx : (⌊d.rcolor * (L.length : ℚ)⌋).toNat < L.length := by
      have hfl : ⌊d.rcolor * (L.length : ℚ)⌋ < (L.length : ℤ) := by
        rw [Int.floor_lt]
        have h1 : d.rcolor * (L.length : ℚ) < 1 * (L.length : ℚ) :=
          mul_lt_mul_of_pos_right hc1 (by exact_mod_cast hlen0)
        rw [one_mul] at h1
        exact_mod_cast h1
      omega
    show L.getD (⌊d.rcolor * (L.length : ℚ)⌋).toNat "" ∈ L
    rw [List.getD_eq_getElem _ _ hidx]
    exact List.getElem_mem hidx

/-- Witness for C7: concrete particle whose update does not reset keeps
its colour after a palette randomisation, and a reset lands in the new
palette. -/
theorem C7_witness :
    (Particle.update (fun _ => 0) 100 100
        (randomizePalette (fun _ => ⟨0, 0, 0⟩) palette0) zeroDraws
        ⟨0, 0, 1/10, 0, 1, 0, 5/2, "old", 1/2, 0⟩).color = "old" ∧
    (Particle.reset 100 100
        (randomizePalette (fun _ => ⟨0, 0, 0⟩) palette0) zeroDraws).color ∈
      randomizePalette (fun _ => ⟨0, 0, 0⟩) palette0 :=
  C7_palette_randomize (fun _ => 0) 100 100 palette0 (fun _ => ⟨0, 0, 0⟩)
    zeroDraws ⟨0, 0, 1/10, 0, 1, 0, 5/2, "old", 1/2, 0⟩
    (by norm_num) le_rfl (show (0 : ℚ) < 1 by norm_num)
    (by unfold palette0; exact List.cons_ne_nil _ _)

/-- Helper: `cancelAnimationFrame` only touches the pending set. -/
theorem cancelRaf_fields (s : Loop) :
    (Loop.cancelRaf s).rafId = s.rafId ∧
    (Loop.cancelRaf s).nextH = s.nextH ∧
    (Loop.cancelRaf s).blank = s.blank := by
  cases hs : s.rafId <;> simp [Loop.cancelRaf, hs]

/-- Helper: the pending set after `cancelAnimationFrame`. -/
theorem cancelRaf_pending_none (s : Loop) (h : s.rafId = none) :
    (Loop.cancelRaf s).pending = s.pending := by
  simp [Loop.cancelRaf, h]

/-- Helper: the pending set after `cancelAnimationFrame` on a live handle. -/
theorem cancelRaf_pending_some (s : Loop) (k : ℕ) (h : s.rafId = some k) :
    (Loop.cancelRaf s).pending = s.pending.erase k := by
  simp [Loop.cancelRaf, h]

/-- Helper: the central render-loop invariant.  Under reduced motion no
frame request is ever made (`rafId` stays null and the request counter
stays 0); in general the outstanding-request set is empty when `rafId` is
null and exactly the singleton of the stored handle otherwise. -/
theorem loop_inv (pr c0 : Bool) (s : Loop) (h : Loop.Reachable pr c0 s) :
    (pr = true → s.rafId = none ∧ s.nextH = 0) ∧
    ((s.rafId = none ∧ s.pending = ∅) ∨
      ∃ k, s.rafId = some k ∧ s.pending = {k}) := by
  induction h with
  | load =>
    cases pr with
    | true => exact ⟨fun _ => ⟨rfl, rfl⟩, Or.inl ⟨rfl, rfl⟩⟩
    | false =>
      refine ⟨?_, Or.inr ⟨0, ?_, ?_⟩⟩
      · intro hpr; cases hpr
      · simp [Loop.load, Loop.render]
      · simp [Loop.load, Loop.render]
  | step s e hr ih =>
    obtain ⟨ihpr, ihd⟩ := ih
    cases e with
    | toggle c =>
      cases c with
      | true =>
        rcases ihd with ⟨h1, h2⟩ | ⟨k, h1, h2⟩
        · cases pr with
          | true =>
            refine ⟨fun _ => ⟨?_, ?_⟩, Or.inl ⟨?_, ?_⟩⟩ <;>
              simp [Loop.step, Loop.render, h1, h2, (ihpr rfl).2]
          | false =>
            refine ⟨?_, Or.inr ⟨s.nextH, ?_, ?_⟩⟩
            · intro hpr; cases hpr
            · simp [Loop.step, Loop.render, h1, h2]
            · simp [Loop.step, Loop.render, h1, h2]
        · have hne : ¬s.rafId = none := by simp [h1]
          refine ⟨?_, Or.inr ⟨k, ?_, ?_⟩⟩
          · intro hpr
            exact absurd ((ihpr hpr).1.symm.trans h1) (by simp)
          · simp [Loop.step, hne, h1]
          · simp [Loop.step, hne, h2]
      | false =>
        have hp : (Loop.step pr s (Ev.toggle false)).pending = ∅ := by
          show (Loop.cancelRaf { s with checked := false }).pending = ∅
          rcases ihd with ⟨h1, h2⟩ | ⟨k, h1, h2⟩
          · rw [cancelRaf_pending_none _ (by simp [h1])]
            simpa using h2
          · rw [cancelRaf_pending_some _ k (by simp [h1])]
            simp [h2]
        refine ⟨fun hpr => ⟨rfl, ?_⟩, Or.inl ⟨rfl, hp⟩⟩
        show (Loop.cancelRaf { s with checked := false }).nextH = 0
        rw [(cancelRaf_fields _).2.1]
        exact (ihpr hpr).2
    | visibility hv =>
      cases hv with
      | true =>
        have hp : (Loop.step pr s (Ev.visibility true)).pending = ∅ := by
          show (Loop.cancelRaf { s with hidden := true }).pending = ∅
          rcases ihd with ⟨h1, h2⟩ | ⟨k, h1, h2⟩
          · rw [cancelRaf_pending_none _ (by simp [h1])]
            simpa using h2
          · rw [cancelRaf_pending_some _ k (by simp [h1])]
            simp [h2]
        refine ⟨fun hpr => ⟨rfl, ?_⟩, Or.inl ⟨rfl, hp⟩⟩
        show (Loop.cancelRaf { s with hidden := true }).nextH = 0
        rw [(cancelRaf_fields _).2.1]
        exact (ihpr hpr).2
      | false =>
        by_cases hg : s.rafId = none ∧ s.checked = true ∧ pr = false
        · obtain ⟨h1, hck, hpr0⟩ := hg
          have h2 : s.pending = ∅ := by
            rcases ihd with ⟨-, h2⟩ | ⟨k, hk, -⟩
            · exact h2
            · exact absurd (h1.symm.trans hk) (by simp)
          subst hpr0
          refine ⟨?_, Or.inr ⟨s.nextH, ?_, ?_⟩⟩
          · intro hpr; cases hpr
          · simp [Loop.step, Loop.render, h1, h2, hck]
          · simp [Loop.step, Loop.render, h1, h2, hck]
        · have hstep : Loop.step pr s (Ev.visibility false) =
              { s with hidden := false } := by
            rw [Loop.step]
            exact if_neg hg
          rw [hstep]
          refine ⟨fun hpr => ⟨?_, ?_⟩, ?_⟩
          · simpa using (ihpr hpr).1
          · simpa using (ihpr hpr).2
          · rcases ihd with ⟨h1, h2⟩ | ⟨k, h1, h2⟩
            · exact Or.inl ⟨by simpa using h1, by simpa using h2⟩
            · exact Or.inr ⟨k, by simpa using h1, by simpa using h2⟩
    | frame =>
      rcases ihd with ⟨h1, h2⟩ | ⟨k, h1, h2⟩
      · have hstep : Loop.step pr s Ev.frame = s := by
          rw [Loop.step]
          split
          · rename_i k hk
            rw [h1] at hk
            cases hk
          · rfl
        rw [hstep]
        exact ⟨ihpr, Or.inl ⟨h1, h2⟩⟩
      · cases pr with
        | true => exact absurd ((ihpr rfl).1.symm.trans h1) (by simp)
        | false =>
          have hstep : Loop.step false s Ev.frame =
              Loop.render false { s with pending := s.pending.erase k } := by
            rw [Loop.step]
            split
            · rename_i k' hk'
              rw [h1] at hk'
              cases hk'
              rw [if_pos (by simp [h2])]
            · rename_i hk'
              rw [h1] at hk'
              cases hk'
          rw [hstep]
          refine ⟨?_, Or.inr ⟨s.nextH, ?_, ?_⟩⟩
          · intro hpr; cases hpr
          · simp [Loop.render]
          · simp [Loop.render, h2]

/-- Helper: cancelling with the invariant in hand empties the pending set. -/
theorem cancelRaf_pending_inv (s : Loop)
    (hd : (s.rafId = none ∧ s.pending = ∅) ∨
      ∃ k, s.rafId = some k ∧ s.pending = {k}) :
    (Loop.cancelRaf s).pending = ∅ := by
  rcases hd with ⟨h1, h2⟩ | ⟨k, h1, h2⟩
  · rw [cancelRaf_pending_none s h1, h2]
  · rw [cancelRaf_pending_some s k h1, h2]
    simp

/-- C2: with the reduced-motion preference set, every reachable state has a
null `rafId`, no outstanding render-loop frame request, and a request
counter of zero — neither the initial `start()`, nor checking the motion
toggle, nor a visibility change ever schedules a render-loop frame. -/
theorem C2_reduced_motion_never_runs (c0 : Bool) (s : Loop)
    (h : Loop.Reachable true c0 s) :
    s.rafId = none ∧ s.pending = ∅ ∧ s.nextH = 0 := by
  obtain ⟨hpr, hd⟩ := loop_inv true c0 s h
  obtain ⟨h1, h3⟩ := hpr rfl
  refine ⟨h1, ?_, h3⟩
  rcases hd with ⟨-, h2⟩ | ⟨k, hk, -⟩
  · exact h2
  · exact absurd (h1.symm.trans hk) (by simp)

/-- Witness for C2 at the load state under reduced motion. -/
theorem C2_witness :
    (Loop.load true true).rafId = none ∧ (Loop.load true true).pending = ∅ ∧
      (Loop.load true true).nextH = 0 :=
  C2_reduced_motion_never_runs true (Loop.load true true) Loop.Reachable.load

/-- C3 (amended): from any reachable state, the motion-toggle stop cancels
the outstanding request, nulls `rafId` and clears the surface; the
visibility-hidden stop cancels and nulls as well, but leaves the surface
exactly as it was (script.js lines 213–214 contain no `clearRect`). -/
theorem C3_stop_cancel_clear (pr c0 : Bool) (s : Loop)
    (h : Loop.Reachable pr c0 s) :
    ((Loop.step pr s (Ev.toggle false)).rafId = none ∧
     (Loop.step pr s (Ev.toggle false)).pending = ∅ ∧
     (Loop.step pr s (Ev.toggle false)).blank = true) ∧
    ((Loop.step pr s (Ev.visibility true)).rafId = none ∧
     (Loop.step pr s (Ev.visibility true)).pending = ∅ ∧
     (Loop.step pr s (Ev.visibility true)).blank = s.blank) := by
  obtain ⟨-, hd⟩ := loop_inv pr c0 s h
  refine ⟨⟨rfl, ?_, rfl⟩, rfl, ?_, ?_⟩
  · exact cancelRaf_pending_inv _ hd
  · exact cancelRaf_pending_inv _ hd
  · exact (cancelRaf_fields _).2.2

/-- Witness for C3 (amended) at the load state with motion enabled. -/
theorem C3_witness :
    (((Loop.load false true).step false (Ev.toggle false)).rafId = none ∧
     ((Loop.load false true).step false (Ev.toggle false)).pending = ∅ ∧
     ((Loop.load false true).step false (Ev.toggle false)).blank = true) ∧
    (((Loop.load false true).step false (Ev.visibility true)).rafId = none ∧
     ((Loop.load false true).step false (Ev.visibility true)).pending = ∅ ∧
     ((Loop.load false true).step false (Ev.visibility true)).blank =
       (Loop.load false true).blank) :=
  C3_stop_cancel_clear false true (Loop.load false true) Loop.Reachable.load

/-- C3 counterexample: after loading with motion on (one frame already
painted, so the surface is not blank), the stop triggered by the document
becoming hidden cancels the frame request but leaves the surface painted —
refuting "every stop … immediately clears the drawing surface". -/
theorem C3_cex_hidden_stop_keeps_frame :
    ((Loop.load false true).step false (Ev.visibility true)).rafId = none ∧
    ((Loop.load false true).step false (Ev.visibility true)).blank = false := by
  constructor <;> rfl

/-- C8: every reachable state owns at most one outstanding render-loop
frame request — exactly one while a handle is stored (RUNNING), none while
`rafId` is null (STOPPED) — and, when reduced motion is off, two
consecutive start attempts (the motion toggle reported checked twice in a
row) leave exactly one outstanding request. -/
theorem C8_single_frame_request (pr c0 : Bool) (s : Loop)
    (h : Loop.Reachable pr c0 s) :
    (s.pending.card = if s.rafId.isSome then 1 else 0) ∧
    (pr = false →
      (Loop.step pr (Loop.step pr s (Ev.toggle true))
        (Ev.toggle true)).pending.card = 1) := by
  obtain ⟨-, hd⟩ := loop_inv pr c0 s h
  constructor
  · rcases hd with ⟨h1, h2⟩ | ⟨k, h1, h2⟩ <;> simp [h1, h2]
  · intro hpr
    subst hpr
    have hone : ∃ k, (Loop.step false s (Ev.toggle true)).rafId = some k ∧
        (Loop.step false s (Ev.toggle true)).pending = {k} := by
      rcases hd with ⟨h1, h2⟩ | ⟨k, h1, h2⟩
      · refine ⟨s.nextH, ?_, ?_⟩ <;> simp [Loop.step, Loop.render, h1, h2]
      · have hne : ¬s.rafId = none := by simp [h1]
        refine ⟨k, ?_, ?_⟩ <;> simp [Loop.step, hne, h1, h2]
    obtain ⟨k, hk1, hk2⟩ := hone
    have hne : ¬(Loop.step false s (Ev.toggle true)).rafId = none := by
      simp [hk1]
    have hp : (Loop.step false (Loop.step false s (Ev.toggle true))
        (Ev.toggle true)).pending = {k} := by
      show (if (Loop.step false s (Ev.toggle true)).rafId = none then
          Loop.render false
            { Loop.step false s (Ev.toggle true) with checked := true }
        else
          { Loop.step false s (Ev.toggle true) with checked := true }).pending
        = {k}
      rw [if_neg hne]
      exact hk2
    rw [hp]
    simp

/-- Witness for C8 at the load state with motion enabled. -/
theorem C8_witness :
    ((Loop.load false true).pending.card =
      if (Loop.load false true).rafId.isSome then 1 else 0) ∧
    (false = false →
      (Loop.step false (Loop.step false (Loop.load false true) (Ev.toggle true))
        (Ev.toggle true)).pending.card = 1) :=
  C8_single_frame_request false true (Loop.load false true) Loop.Reachable.load

/-- Helper: closed form of the burst tick chain — before tick `k ≤ 27` the
elapsed time is `16 k`, and a frame is scheduled exactly while `k < 27`. -/
theorem burstStates_formula (k : ℕ) (hk : k ≤ 27) :
    burstStates k = ⟨16 * k, decide (k < 27)⟩ := by
  induction k with
  | zero => simp [burstStates]
  | succ k ih =>
    have hklt : k < 27 := Nat.lt_of_succ_le hk
    rw [burstStates, ih (Nat.le_of_succ_le hk), burstStep]
    rw [if_pos (by simpa using hklt)]
    have hiff : (16 * (k : ℚ) + 16 < burstDuration) ↔ (k + 1 < 27) := by
      rw [burstDuration,
        show (16 * (k : ℚ) + 16) = ((16 * k + 16 : ℕ) : ℚ) by push_cast; ring,
        show (420 : ℚ) = ((420 : ℕ) : ℚ) by norm_num, Nat.cast_lt]
      omega
    rw [BurstState.mk.injEq]
    exact ⟨by push_cast; ring, decide_eq_decide.mpr hiff⟩

/-- Helper: from tick 27 on, nothing is scheduled and the state is frozen. -/
theorem burstStates_past (m : ℕ) : burstStates (27 + m) = ⟨432, false⟩ := by
  induction m with
  | zero =>
    rw [show (27 + 0 : ℕ) = 27 from rfl, burstStates_formula 27 le_rfl]
    norm_num
  | succ m ih =>
    rw [show (27 + (m + 1) : ℕ) = (27 + m) + 1 from rfl, burstStates, ih,
      burstStep]
    simp

/-- Helper: closed form of the painted progress values. -/
theorem burstPainted_formula (k : ℕ) (hk : k ≤ 27) :
    burstPainted k = (16 * k + 16) / 420 := by
  rw [burstPainted, burstStates_formula k hk]
  rfl

/-- C4 (amended): a burst runs for exactly `⌈420/16⌉ = 27` ticks — every
tick `k < 27` is scheduled and from tick 27 on no further tick is ever
scheduled; the painted `progress` is strictly increasing; it lies in
`(0, 1]` on every tick but the last; and the final painted tick (tick 26)
paints `progress = 432/420`, slightly above 1 — the claim's "progress stays
within [0,1] on every painted tick" fails exactly there. -/
theorem C4_burst_tick_chain :
    (⌈(420 : ℚ) / 16⌉ = 27) ∧
    (∀ k, k < 27 → (burstStates k).scheduled = true) ∧
    (∀ m, (burstStates (27 + m)).scheduled = false) ∧
    (∀ j k, j < k → k < 27 → burstPainted j < burstPainted k) ∧
    (∀ k, k < 26 → 0 < burstPainted k ∧ burstPainted k ≤ 1) ∧
    (1 < burstPainted 26) := by
  refine ⟨?_, ?_, ?_, ?_, ?_, ?_⟩
  · rw [Int.ceil_eq_iff]
    norm_num
  · intro k hk
    rw [burstStates_formula k (le_of_lt hk)]
    simpa using hk
  · intro m
    rw [burstStates_past m]
  · intro j k hjk hk
    rw [burstPainted_formula j (by omega), burstPainted_formula k (by omega)]
    rw [div_lt_div_iff_of_pos_right (by norm_num : (0:ℚ) < 420)]
    have : (j : ℚ) < k := by exact_mod_cast hjk
    linarith
  · intro k hk
    rw [burstPainted_formula k (by omega)]
    refine ⟨by positivity, ?_⟩
    rw [div_le_one (by norm_num)]
    have : (k : ℚ) ≤ 25 := by exact_mod_cast Nat.lt_succ_iff.mp hk
    linarith
  · rw [burstPainted_formula 26 (by omega)]
    norm_num

/-- Witness for C4 (amended) at concrete ticks. -/
theorem C4_witness :
    (burstStates 5).scheduled = true ∧
    burstPainted 3 < burstPainted 7 ∧
    (0 < burstPainted 4 ∧ burstPainted 4 ≤ 1) :=
  ⟨C4_burst_tick_chain.2.1 5 (by norm_num),
   C4_burst_tick_chain.2.2.2.1 3 7 (by norm_num) (by norm_num),
   C4_burst_tick_chain.2.2.2.2.1 4 (by norm_num)⟩

/-- C4 counterexample: tick 26 is scheduled (it is a painted tick) yet its
painted `progress` exceeds 1 — refuting "progress stays within [0,1] on
every painted tick". -/
theorem C4_cex_final_tick_overshoot :
    (burstStates 26).scheduled = true ∧ 1 < burstPainted 26 := by
  constructor
  · rw [burstStates_formula 26 (by omega)]
    norm_num
  · rw [burstPainted_formula 26 (by omega)]
    norm_num

/-- C1 (amended): every (re-)initialisation builds a pool of exactly
`max(20, PARTICLE_COUNT)` particles, where `PARTICLE_COUNT =
round(w0 * h0 / 70000)` is fixed at load time from the startup dimensions;
a later resize to `w × h` rebuilds the pool with that same count — it is
not recomputed from the current dimensions. -/
theorem C1_pool_size_fixed_at_load (pal : List String)
    (draws : ℕ → ResetDraws) (w0 h0 w h : ℚ) :
    (resizeField pal draws w h (loadField pal draws w0 h0)).particles.length
      = (max 20 (PARTICLE_COUNT w0 h0)).toNat ∧
    (loadField pal draws w0 h0).particles.length
      = (max 20 (PARTICLE_COUNT w0 h0)).toNat := by
  constructor <;> simp [resizeField, loadField, initParticles]

/-- C1 counterexample: load at 3000×3000 (`PARTICLE_COUNT = 129`), then
resize to 700×700.  The claim says the new pool should have
`max(20, round(700·700/70000)) = 20` particles; the code rebuilds 129. -/
theorem C1_cex_resize_ignores_new_dims :
    (resizeField palette0 (fun _ => zeroDraws) 700 700
        (loadField palette0 (fun _ => zeroDraws) 3000 3000)).particles.length ≠
      (max 20 (round ((700 : ℚ) * 700 / 70000))).toNat := by
  have hlen : (resizeField palette0 (fun _ => zeroDraws) 700 700
      (loadField palette0 (fun _ => zeroDraws) 3000 3000)).particles.length
      = (max 20 (PARTICLE_COUNT 3000 3000)).toNat := by
    simp [resizeField, loadField, initParticles]
  have h1 : PARTICLE_COUNT 3000 3000 = 129 := by
    rw [PARTICLE_COUNT, round_eq]
    rw [show ((3000 : ℚ) * 3000 / 70000 + 1 / 2) = 1807 / 14 by norm_num]
    rw [Int.floor_eq_iff]
    norm_num
  have h2 : round ((700 : ℚ) * 700 / 70000) = 7 := by
    rw [round_eq]
    rw [show ((700 : ℚ) * 700 / 70000 + 1 / 2) = 15 / 2 by norm_num]
    rw [Int.floor_eq_iff]
    norm_num
  rw [hlen, h1, h2]
  decide

/-- Helper: after `n` re-initialisations the live pool is array `1 + n`
while the exposed reference still names array 1. -/
theorem reinitN_loadPool (n : ℕ) :
    reinitN n loadPool = ⟨1 + n, 2 + n, some 1⟩ := by
  induction n with
  | zero => rfl
  | succ n ih =>
    rw [reinitN, ih]
    simp [reinitPool, PoolSys.mk.injEq]
    omega

/-- C9 (amended): the debug object captures the pool reference current at
expose time; before any further re-initialisation it is the live pool, but
after any `n ≥ 1` re-initialisations (resizes) the exposed collection is a
stale array — `initParticles` rebinds `particles` to a fresh array that the
exposed object does not see. -/
theorem C9_exposed_pool_snapshot (n : ℕ) (hn : 1 ≤ n) :
    loadPool.exposedId = some loadPool.poolId ∧
    (reinitN n loadPool).exposedId = some loadPool.poolId ∧
    (reinitN n loadPool).poolId ≠ loadPool.poolId := by
  refine ⟨rfl, ?_, ?_⟩
  · rw [reinitN_loadPool n]
    rfl
  · rw [reinitN_loadPool n]
    show (1 + n : ℕ) ≠ 1
    omega

/-- Witness for C9 (amended) after a single resize. -/
theorem C9_witness :
    loadPool.exposedId = some loadPool.poolId ∧
    (reinitN 1 loadPool).exposedId = some loadPool.poolId ∧
    (reinitN 1 loadPool).poolId ≠ loadPool.poolId :=
  C9_exposed_pool_snapshot 1 le_rfl

/-- C9 counterexample: immediately after one re-initialisation the exposed
collection is no longer the pool the render loop iterates. -/
theorem C9_cex_exposed_pool_stale :
    (reinitPool loadPool).exposedId ≠ some (reinitPool loadPool).poolId := by
  decide

end TecladoHielo
